import Mathlib

/-!
Shallow embedding of the xpersist memory-consistency engine of the sheriff
false-sharing detector (src/include/xpersist.h), together with theorems
settling the specification claims about it.

Modelling conventions:

* Machine words (C `unsigned long`, 4 bytes here: the source assumes
  `sizeof(unsigned long) == 2 * sizeof(unsigned short)`, line 645) are `Nat`
  values; where byte-level behaviour matters (`commitPageDiffs`,
  `checkCommitWord`) a word is the list of its bytes, so numeric word
  equality coincides with byte-list equality.
* A page is the list of its words.  The C loops
  `for i in 0 .. PageSize/sizeof(unsigned long)` become folds over
  `List.range` of the page list's length (the number of words in a page).
* The shared arrays `_cacheLastthread` and `_cacheInvalidates` are functions
  `Nat → Nat` indexed by global cache number; `_pageUsers` is a function
  indexed by page number.
* A `pageinfo` record holds the contents of the buffers its C pointers point
  at; distinct C buffers are distinct list values, and `memcpy` becomes
  substitution of one list value for another.
* Where a model function needs to report which calls the code issued (the
  batched `updatePages` system calls of `updateAll`, the
  `recordChangesAndUpdate` invocations of `periodicCheck`, the
  `recordCacheInvalidates` calls of `checkcommitpage`) it additionally
  returns a transparent trace of those calls; the traces are pure
  instrumentation and do not influence the computed state.
-/

namespace Sheriff

/-- Modelled from the spec: xdefines.h is not part of src/.  The page size is
4096 bytes and a cache line is 64 bytes, so a page holds 64 cache lines and a
cache line holds 16 four-byte words (matching the source's `cacheNo = i >> 4`
with 4-byte `unsigned long`). -/
def PageSize : Nat := 4096

/-- Modelled from the spec: cache lines per page (xdefines::CACHES_PER_PAGE
= PageSize / CACHE_LINE_SIZE = 64). -/
def CACHES_PER_PAGE : Nat := 64

/-- Packed per-word change record (wordchangeinfo.h, described at
xpersist.h lines 851-853): a 16-bit owning-thread id and a 16-bit version
count.  Both fields are `unsigned short`, so all stores are modulo 2^16. -/
structure wordchangeinfo where
  tid : Nat
  version : Nat
deriving DecidableEq

/-- recordWordChanges (xpersist.h lines 618-634).  `mine` is `getpid()`.
If no owner is recorded the word's tid becomes the current process (truncated
to 16 bits by the `unsigned short` store); if a different owner (that is not
already the 0xFFFF sentinel) is recorded, the tid becomes the 0xFFFF shared
sentinel; `changes` is added to the 16-bit version field. -/
def recordWordChanges (mine : Nat) (word : wordchangeinfo) (changes : Nat) :
    wordchangeinfo :=
  { tid :=
      if word.tid = 0 then mine % 65536
      else if word.tid ≠ 0 ∧ word.tid ≠ mine ∧ word.tid ≠ 0xFFFF then 0xFFFF
      else word.tid
  , version := (word.version + changes) % 65536 }

/-- The two lock-free shared per-cache-line arrays `_cacheLastthread` and
`_cacheInvalidates`, indexed by global cache number. -/
structure CacheState where
  cacheLastthread : Nat → Nat
  cacheInvalidates : Nat → Nat

/-- recordCacheInvalidates (xpersist.h lines 486-503).  Atomically exchanges
`myTid` into `_cacheLastthread[cacheNo]`; if the previous holder was nonzero
and not the current process, increments `_cacheInvalidates[cacheNo]` and
reports one interleaving.  The `pageNo` parameter is unused in the source
body and kept for signature fidelity. -/
def recordCacheInvalidates (myTid pageNo cacheNo : Nat) (cs : CacheState) :
    CacheState × Nat :=
  let lastTid := cs.cacheLastthread cacheNo
  let cs1 : CacheState :=
    { cacheLastthread := fun c => if c = cacheNo then myTid else cs.cacheLastthread c
    , cacheInvalidates := cs.cacheInvalidates }
  if lastTid ≠ 0 ∧ lastTid ≠ myTid then
    ({ cs1 with cacheInvalidates :=
        fun c => if c = cacheNo then cs.cacheInvalidates c + 1 else cs.cacheInvalidates c }, 1)
  else
    (cs1, 0)

/-- Per-page metadata (struct pageinfo, fields as used by xpersist.h).
`pageStart` holds the contents of the working-copy page, `origTwinPage` the
original twin captured at first fault, `tempTwinPage` the temporary twin
(allocated lazily), `wordChanges` the per-word local change counters. -/
structure pageinfo where
  pageNo : Nat
  pageStart : List Nat
  origTwinPage : List Nat
  tempTwinPage : List Nat
  wordChanges : List Nat
  shared : Bool
  alloced : Bool
deriving DecidableEq

/-- Loop state of recordChangesAndUpdate: the cache arrays, the twin buffer
being compared against (and updated in place when `createTempPage` is false),
the per-word local change counters, the `recordedCacheNo` tie-break and the
`interWrites` tally. -/
structure RCAcc where
  cs : CacheState
  twin : List Nat
  wordChanges : List Nat
  recordedCacheNo : Nat
  interWrites : Nat

/-- Body of the word loop of recordChangesAndUpdate (xpersist.h lines
537-560): on a word that differs from the twin, record a cache invalidation
once per distinct cache line (`cacheNo = i >> 4`), update the twin word in
place when comparing against the temporary twin (`createTempPage` false), and
increment the word's local change counter. -/
def recordChangesAndUpdateStep (myTid pageNo : Nat) (createTempPage : Bool)
    (localWords : List Nat) (acc : RCAcc) (i : Nat) : RCAcc :=
  if localWords.getD i 0 ≠ acc.twin.getD i 0 then
    let cacheNo := i >>> 4
    let acc1 :=
      if cacheNo ≠ acc.recordedCacheNo then
        let r := recordCacheInvalidates myTid pageNo (pageNo * CACHES_PER_PAGE + cacheNo) acc.cs
        { acc with cs := r.1, interWrites := acc.interWrites + r.2, recordedCacheNo := cacheNo }
      else acc
    let acc2 :=
      if createTempPage = false then
        { acc1 with twin := acc1.twin.set i (localWords.getD i 0) }
      else acc1
    { acc2 with wordChanges := acc2.wordChanges.set i (acc2.wordChanges.getD i 0 + 1) }
  else acc

/-- recordChangesAndUpdate (xpersist.h lines 506-561).  When
`createTempPage` is true the twin pointer is set to the original twin page
and `memcpy(twin, local, PageSize)` immediately overwrites that buffer with
the working copy (so the subsequent comparison loop compares the working copy
against a fresh copy of itself); when false the twin is the temporary twin
page.  Afterwards the (possibly updated) twin contents are stored back into
the buffer the twin pointer aliased: `origTwinPage` in the first case,
`tempTwinPage` in the second. -/
def recordChangesAndUpdate (myTid : Nat) (cs : CacheState) (pg : pageinfo)
    (createTempPage : Bool) : CacheState × pageinfo :=
  let localWords := pg.pageStart
  let twin0 : List Nat := if createTempPage then localWords else pg.tempTwinPage
  let res := (List.range localWords.length).foldl
      (recordChangesAndUpdateStep myTid pg.pageNo createTempPage localWords)
      ⟨cs, twin0, pg.wordChanges, 0xFFFFFFFF, 0⟩
  if createTempPage then
    (res.cs, { pg with origTwinPage := res.twin, wordChanges := res.wordChanges })
  else
    (res.cs, { pg with tempTwinPage := res.twin, wordChanges := res.wordChanges })

/-- allocResourcesForSharedPage (xpersist.h lines 433-441).  The two
`xpagestore::getInstance().alloc()` buffers come from an external pool
(xpagestore.h is outside the modelled core); only the word-change buffer is
`memset` to zero, the temporary-twin buffer keeps whatever contents the pool
hands back, so its initial contents `poolPage` are a parameter. -/
def allocResourcesForSharedPage (poolPage : List Nat) (pg : pageinfo) : pageinfo :=
  { pg with wordChanges := List.replicate pg.pageStart.length 0
          , tempTwinPage := poolPage
          , alloced := true }

/-- Loop state of periodicCheck: the `createTempPage` flag (declared outside
the page loop in the source), the cache arrays, the number of pool
allocations performed so far (used to index the pool supply), and a trace of
the `recordChangesAndUpdate` invocations as (pageNo, createTempPage) pairs. -/
structure PCAcc where
  createTempPage : Bool
  cs : CacheState
  allocCount : Nat
  trace : List (Nat × Bool)

/-- Body of the page loop of periodicCheck (xpersist.h lines 449-483):
skip a not-yet-shared page whose user count still reads 1; otherwise mark it
shared, allocate its extra resources if not yet allocated (setting the
loop-scoped `createTempPage` flag, which the source never resets), and invoke
recordChangesAndUpdate with the current flag value. -/
def periodicCheckStep (myTid : Nat) (pageUsers : Nat → Nat) (pool : Nat → List Nat)
    (acc : PCAcc) (pg : pageinfo) : PCAcc × pageinfo :=
  if pg.shared ≠ true ∧ pageUsers pg.pageNo = 1 then (acc, pg)
  else
    let pg1 := if pg.shared ≠ true then { pg with shared := true } else pg
    let acc1 :=
      if pg1.alloced = false then
        { acc with createTempPage := true, allocCount := acc.allocCount + 1 }
      else acc
    let pg2 :=
      if pg1.alloced = false then allocResourcesForSharedPage (pool acc.allocCount) pg1
      else pg1
    let r := recordChangesAndUpdate myTid acc1.cs pg2 acc1.createTempPage
    ({ acc1 with cs := r.1, trace := acc1.trace ++ [(pg2.pageNo, acc1.createTempPage)] }, r.2)

/-- Fold of periodicCheckStep over the private pages list, threading the
loop state and collecting the updated pageinfo records in order. -/
def periodicCheckGo (myTid : Nat) (pageUsers : Nat → Nat) (pool : Nat → List Nat) :
    PCAcc → List pageinfo → PCAcc × List pageinfo
  | acc, [] => (acc, [])
  | acc, pg :: rest =>
    let r1 := periodicCheckStep myTid pageUsers pool acc pg
    let r2 := periodicCheckGo myTid pageUsers pool r1.1 rest
    (r2.1, r1.2 :: r2.2)

/-- periodicCheck (xpersist.h lines 444-484), over the entries of
`_privatePagesList` in page-number order.  `createTempPage` starts false for
each call (it is a local variable of the C function). -/
def periodicCheck (myTid : Nat) (pageUsers : Nat → Nat) (pool : Nat → List Nat)
    (cs : CacheState) (pages : List pageinfo) : PCAcc × List pageinfo :=
  periodicCheckGo myTid pageUsers pool ⟨false, cs, 0, []⟩ pages

/-- updateBatchedPages (xpersist.h lines 691-693): one combined
`updatePages` call, i.e. one `madvise(MADV_DONTNEED)` plus `mprotect(PROT_READ)`
over `batchedPages * PageSize` bytes starting at `batchedStart`.  We record
the call as the pair (start page number, number of pages); `batchedStart` is
the `pageStart` of the page that opened the batch, which is the page-aligned
address of that page number. -/
def updateBatchedPages (batchedPages batchedStart : Nat) (calls : List (Nat × Nat)) :
    List (Nat × Nat) :=
  calls ++ [(batchedStart, batchedPages)]

/-- Loop state of updateAll: the current batch start page, the batch length,
the `lastpage` variable (an `unsigned int`, initialised to 0xFFFFFFF0), and
the emitted combined calls. -/
structure UAcc where
  batchedStart : Nat
  batchedPages : Nat
  lastpage : Nat
  calls : List (Nat × Nat)

/-- Body of the page loop of updateAll (xpersist.h lines 715-737): a page
equal to `lastpage + 1` (32-bit unsigned arithmetic) extends the current
batch (the source does not advance `lastpage` here); any other page flushes
the pending batch, if nonempty, and starts a new one. -/
def updateAllStep (acc : UAcc) (pageNo : Nat) : UAcc :=
  if pageNo = (acc.lastpage + 1) % 4294967296 then
    { acc with batchedPages := acc.batchedPages + 1 }
  else
    let calls1 :=
      if acc.batchedPages > 0 then
        updateBatchedPages acc.batchedPages acc.batchedStart acc.calls
      else acc.calls
    { batchedStart := pageNo, batchedPages := 1, lastpage := pageNo, calls := calls1 }

/-- updateAll (xpersist.h lines 699-752), invoked by `begin` at transaction
start: walks the private pages list in ascending page order, batching
contiguous pages, and returns the list of combined discard-and-reprotect
calls issued as (start page, page count) pairs (the trailing batch is flushed
after the loop).  The input is the sorted list of dirty page numbers (the
keys of `_privatePagesList`). -/
def updateAll (pages : List Nat) : List (Nat × Nat) :=
  if pages.length = 0 then []
  else
    let st := pages.foldl updateAllStep ⟨0, 0, 0xFFFFFFF0, []⟩
    if st.batchedPages > 0 then updateBatchedPages st.batchedPages st.batchedStart st.calls
    else st.calls

/-- Three-list zipWith, used to express the per-word and per-byte
compare-and-select operations of the commit paths. -/
def zipWith3 {α β γ δ : Type} (f : α → β → γ → δ) : List α → List β → List γ → List δ
  | a :: as, b :: bs, c :: cs => f a b c :: zipWith3 f as bs cs
  | _, _, _ => []

/-- SSE path of commitPageDiffs (xpersist.h lines 571-590) restricted to one
machine word, as the list of its bytes.  The intrinsics act on independent
byte lanes: `_mm_cmpeq_epi8` yields 0xFF per equal byte pair and 0x00
otherwise, the XOR with all-ones inverts that mask, and
`_mm_maskmoveu_si128` stores the working-copy byte exactly where the mask
byte is set, so each destination byte becomes the working-copy byte iff the
working-copy and twin bytes differ, and is left untouched otherwise.  The
16-byte chunking of the loop factors through this per-byte action, so
grouping by 4-byte machine word preserves the semantics exactly. -/
def commitWordSSE (localW twinW destW : List Nat) : List Nat :=
  zipWith3 (fun lb tb db => if lb ≠ tb then lb else db) localW twinW destW

/-- SSE path of commitPageDiffs over a whole page (list of words, each the
list of its bytes). -/
def commitPageDiffsSSE (localPage twinPage destPage : List (List Nat)) :
    List (List Nat) :=
  zipWith3 commitWordSSE localPage twinPage destPage

/-- Portable fallback path of commitPageDiffs (xpersist.h lines 593-603):
word-at-a-time; a destination word is overwritten with the whole working-copy
word iff the working-copy and twin words differ (numeric `unsigned long`
equality, i.e. equality of the byte lists). -/
def commitPageDiffsFallback (localPage twinPage destPage : List (List Nat)) :
    List (List Nat) :=
  zipWith3 (fun lw tw dw => if lw ≠ tw then lw else dw) localPage twinPage destPage

/-- checkCommitWord (xpersist.h lines 608-616): byte-by-byte merge of one
word into the shared mapping; a shared byte is overwritten with the
working-copy byte iff the working-copy byte differs from the twin byte. -/
def checkCommitWord (localW twinW shareW : List Nat) : List Nat :=
  zipWith3 (fun lb tb sb => if lb ≠ tb then lb else sb) localW twinW shareW

/-- State threaded through checkcommitpage: the cache arrays, the words of
this page of the persistent (shared) mapping, the page's slice of the global
`_wordChanges` array, the `recordedCacheNo` tie-break, and a trace of the
word indices whose processing called recordCacheInvalidates. -/
structure CommitPageState where
  cs : CacheState
  share : List (List Nat)
  globalChanges : List wordchangeinfo
  recordedCacheNo : Nat
  trace : List Nat

/-- Body of the word loop of checkcommitpage (xpersist.h lines 655-687).
Branches, in source order:
if the working-copy word equals the original-twin word, a nonzero local
change count is folded into the global record (the ABA case) and the word is
otherwise skipped (`continue`); else, if the word also differs from the
temporary twin, a cache invalidation is recorded once per distinct cache line
and the global record gets the local count plus one, otherwise just the local
count; finally the word is byte-merged into the shared mapping. -/
def checkcommitpageStep (myTid pageNo : Nat) (localP twinP tempTwinP : List (List Nat))
    (localChanges : List Nat) (st : CommitPageState) (i : Nat) : CommitPageState :=
  if localP.getD i [] = twinP.getD i [] then
    if localChanges.getD i 0 ≠ 0 then
      { st with globalChanges := st.globalChanges.set i (recordWordChanges myTid (st.globalChanges.getD i ⟨0, 0⟩) (localChanges.getD i 0)) }
    else st
  else if localP.getD i [] ≠ tempTwinP.getD i [] then
    if (i >>> 4) ≠ st.recordedCacheNo then
      { st with
          cs := (recordCacheInvalidates myTid pageNo (pageNo * CACHES_PER_PAGE + (i >>> 4)) st.cs).1
        , recordedCacheNo := i >>> 4
        , trace := st.trace ++ [i]
        , globalChanges := st.globalChanges.set i (recordWordChanges myTid (st.globalChanges.getD i ⟨0, 0⟩) (localChanges.getD i 0 + 1))
        , share := st.share.set i (checkCommitWord (localP.getD i []) (twinP.getD i []) (st.share.getD i [])) }
    else
      { st with
          globalChanges := st.globalChanges.set i (recordWordChanges myTid (st.globalChanges.getD i ⟨0, 0⟩) (localChanges.getD i 0 + 1))
        , share := st.share.set i (checkCommitWord (localP.getD i []) (twinP.getD i []) (st.share.getD i [])) }
  else
    { st with
        globalChanges := st.globalChanges.set i (recordWordChanges myTid (st.globalChanges.getD i ⟨0, 0⟩) (localChanges.getD i 0))
      , share := st.share.set i (checkCommitWord (localP.getD i []) (twinP.getD i []) (st.share.getD i [])) }

/-- checkcommitpage (xpersist.h lines 639-688): the word loop over one shared
page at commit.  `localP` is the working copy, `twinP` the original twin,
`tempTwinP` the temporary twin, `localChanges` the page's local per-word
change counters, `share` this page of the persistent mapping and `global` the
page's slice of the global `_wordChanges` array (the byte offset
`PageSize * pageNo` into `_wordChanges` corresponds to indexing that slice by
the word index `i`, since a wordchangeinfo record occupies one machine
word). -/
def checkcommitpage (myTid pageNo : Nat) (localP twinP tempTwinP : List (List Nat))
    (localChanges : List Nat) (cs : CacheState) (share : List (List Nat))
    (global : List wordchangeinfo) : CommitPageState :=
  (List.range localP.length).foldl
    (checkcommitpageStep myTid pageNo localP twinP tempTwinP localChanges)
    ⟨cs, share, global, 0xFFFFFFFF, []⟩

/-- computePage (xpersist.h lines 792-794): the source multiplies its
argument by `sizeof(Type)` before dividing by the page size.  `sizeofType`
abstracts `sizeof(Type)` of the template instantiation. -/
def computePage (sizeofType index : Nat) : Nat :=
  (index * sizeofType) / PageSize

/-- Page index recorded by handleWrite (xpersist.h line 389): the byte offset
of the faulting address from `base()` is passed to computePage. -/
def handleWritePageNo (sizeofType base addr : Nat) : Nat :=
  computePage sizeofType (addr - base)

/-- Aligned page start computed by handleWrite (xpersist.h line 383):
`addr & ~PAGE_SIZE_MASK`, i.e. the address rounded down to a page multiple. -/
def handleWritePageStart (addr : Nat) : Nat :=
  (addr / PageSize) * PageSize

/-- Size adjustment performed by the xpersist constructor in the globals case
(xpersist.h line 115): `_startsize = (_startsize / PageSize + 1) * PageSize`. -/
def ctorStartsizeGlobals (startsize : Nat) : Nat :=
  (startsize / PageSize + 1) * PageSize

/-- size (xpersist.h lines 361-366): `NElts * sizeof(Type)` for a heap
region, the recorded `_startsize` otherwise. -/
def size (isHeap : Bool) (nelts sizeofType startsize : Nat) : Nat :=
  if isHeap then nelts * sizeofType else startsize

/-! Helper lemmas about list indexing. -/

theorem getD_set_self {α : Type} : ∀ (l : List α) (i : Nat) (v d : α),
    i < l.length → (l.set i v).getD i d = v
  | [], i, _, _, h => absurd h (by simp)
  | _ :: _, 0, _, _, _ => rfl
  | _ :: as, i + 1, v, d, h => getD_set_self as i v d (by simpa using h)

theorem getD_set_ne {α : Type} : ∀ (l : List α) (j i : Nat) (v d : α),
    j ≠ i → (l.set j v).getD i d = l.getD i d
  | [], _, _, _, _, _ => rfl
  | _ :: _, 0, 0, _, _, h => absurd rfl h
  | _ :: _, 0, _ + 1, _, _, _ => rfl
  | _ :: _, _ + 1, 0, _, _, _ => rfl
  | _ :: as, j + 1, i + 1, v, d, h =>
    getD_set_ne as j i v d (fun hji => h (congrArg Nat.succ hji))

theorem getD_ext : ∀ (xs ys : List Nat), xs.length = ys.length →
    (∀ j, j < xs.length → xs.getD j 0 = ys.getD j 0) → xs = ys
  | [], [], _, _ => rfl
  | [], _ :: _, h, _ => by simp at h
  | _ :: _, [], h, _ => by simp at h
  | x :: xs, y :: ys, h, hp => by
    have h0 : x = y := hp 0 (by simp)
    have ht : xs = ys :=
      getD_ext xs ys (by simpa using h) (fun j hj => hp (j + 1) (by simpa using hj))
    rw [h0, ht]

theorem range_split : ∀ (n i : Nat), i < n →
    ∃ l1 l2, List.range n = l1 ++ i :: l2 ∧ (∀ j ∈ l1, j ≠ i) ∧ (∀ j ∈ l2, j ≠ i) := by
  intro n
  induction n with
  | zero => intro i h; omega
  | succ m ih =>
    intro i h
    by_cases hi : i < m
    · obtain ⟨l1, l2, he, h1, h2⟩ := ih i hi
      refine ⟨l1, l2 ++ [m], ?_, h1, ?_⟩
      · rw [List.range_succ, he]; simp
      · intro j hj
        rcases List.mem_append.1 hj with hj | hj
        · exact h2 j hj
        · simp only [List.mem_singleton] at hj; omega
    · have him : i = m := by omega
      subst him
      refine ⟨List.range i, [], by rw [List.range_succ], ?_, by simp⟩
      intro j hj
      have := List.mem_range.1 hj
      omega

/-! Claim C1: transaction reset batching. -/

/-- Claim C1 (code_bug evidence): with exactly pages 3, 4 and 5 dirtied,
updateAll issues TWO combined discard-and-reprotect calls — one covering
pages 3-4 and one covering page 5 — not the single call covering pages 3-5
that the claim requires, because the loop advances `lastpage` only when a
batch is (re)started, never while extending one. -/
theorem updateAll_pages_3_4_5_two_calls :
    updateAll [3, 4, 5] = [(3, 2), (5, 1)] ∧ updateAll [3, 4, 5] ≠ [(3, 3)] := by
  decide

/-! Claim C2: first-promotion recording. -/

/-- Claim C2 (code_bug evidence): on a first promotion pass
(`createTempPage` true) of a page whose working copy [5] differs from its
original twin [0] at word 0, recordChangesAndUpdate records nothing: the
cache arrays are untouched (the exchange into `_cacheLastthread` never
happens, so slot 0 keeps its prior value 7) and the word's local change
counter stays 0, because the memcpy refreshes the original twin to the
working copy BEFORE the comparison loop, erasing every difference.  The only
effect is `origTwinPage := pageStart`. -/
theorem recordChangesAndUpdate_first_promotion_records_nothing :
    (recordChangesAndUpdate 9 ⟨fun _ => 7, fun _ => 0⟩ ⟨0, [5], [0], [], [0], true, true⟩ true).1.cacheInvalidates 0 = 0 ∧
    (recordChangesAndUpdate 9 ⟨fun _ => 7, fun _ => 0⟩ ⟨0, [5], [0], [], [0], true, true⟩ true).1.cacheLastthread 0 = 7 ∧
    (recordChangesAndUpdate 9 ⟨fun _ => 7, fun _ => 0⟩ ⟨0, [5], [0], [], [0], true, true⟩ true).2 = ⟨0, [5], [5], [], [0], true, true⟩ := by
  refine ⟨rfl, rfl, by decide⟩

/-! Claim C3: createTempPage flag scope. -/

/-- Claim C3 (code_bug evidence): in one periodicCheck pass over page 1
(shared, extra resources not yet allocated) followed by page 2 (shared,
resources already allocated in an earlier pass), both
recordChangesAndUpdate invocations carry createTempPage = true: the flag is
declared outside the page loop and never reset, so page 1's allocation leaks
it onto page 2, which the claim requires to be invoked with false. -/
theorem periodicCheck_sticky_createTempPage :
    (periodicCheck 9 (fun _ => 2) (fun _ => [0]) ⟨fun _ => 0, fun _ => 0⟩
        [⟨1, [7], [7], [], [], true, false⟩, ⟨2, [9], [3], [4], [0], true, true⟩]).1.trace
      = [(1, true), (2, true)] := by
  decide

/-! Claim C4: idempotence of periodicCheck. -/

/-- Claim C4 (code_bug evidence): one shared page, working copy [5], pool
handing out zero-filled buffers, no writes between two periodicCheck calls.
The first call allocates resources and records nothing (so cacheInvalidates
stays 0 and the page's wordChanges buffer is [0]), but it never initialises
the temporary twin from the working copy (the memcpy goes to the original
twin instead); the second call therefore compares the working copy [5]
against the stale temporary twin [0], bumping the word's change counter to 1
and the cache-invalidation counter to 1 — new recording activity that the
claimed idempotence forbids. -/
theorem periodicCheck_second_pass_records_new_counts :
    ((periodicCheck 9 (fun _ => 2) (fun _ => [0]) ⟨fun _ => 7, fun _ => 0⟩
        [⟨0, [5], [0], [], [], true, false⟩]).1.cs.cacheInvalidates 0 = 0 ∧
      (periodicCheck 9 (fun _ => 2) (fun _ => [0]) ⟨fun _ => 7, fun _ => 0⟩
        [⟨0, [5], [0], [], [], true, false⟩]).2 = [⟨0, [5], [5], [0], [0], true, true⟩]) ∧
    ((periodicCheck 9 (fun _ => 2) (fun _ => [0])
        (periodicCheck 9 (fun _ => 2) (fun _ => [0]) ⟨fun _ => 7, fun _ => 0⟩
          [⟨0, [5], [0], [], [], true, false⟩]).1.cs
        (periodicCheck 9 (fun _ => 2) (fun _ => [0]) ⟨fun _ => 7, fun _ => 0⟩
          [⟨0, [5], [0], [], [], true, false⟩]).2).1.cs.cacheInvalidates 0 = 1 ∧
      (periodicCheck 9 (fun _ => 2) (fun _ => [0])
        (periodicCheck 9 (fun _ => 2) (fun _ => [0]) ⟨fun _ => 7, fun _ => 0⟩
          [⟨0, [5], [0], [], [], true, false⟩]).1.cs
        (periodicCheck 9 (fun _ => 2) (fun _ => [0]) ⟨fun _ => 7, fun _ => 0⟩
          [⟨0, [5], [0], [], [], true, false⟩]).2).2 = [⟨0, [5], [5], [5], [1], true, true⟩]) := by
  refine ⟨⟨rfl, by decide⟩, rfl, by decide⟩

/-! Claim C5: SSE path versus word-at-a-time fallback of commitPageDiffs. -/

theorem commitWordSSE_eq_select : ∀ (lw tw dw : List Nat),
    lw.length = tw.length → lw.length = dw.length →
    (∀ j, j < lw.length → lw.getD j 0 = tw.getD j 0 → dw.getD j 0 = lw.getD j 0) →
    commitWordSSE lw tw dw = if lw ≠ tw then lw else dw := by
  intro lw
  induction lw with
  | nil =>
    intro tw dw h1 h2 _
    cases tw with
    | nil =>
      cases dw with
      | nil => simp [commitWordSSE, zipWith3]
      | cons c cs => simp at h2
    | cons b bs => simp at h1
  | cons a as ih =>
    intro tw dw h1 h2 hp
    cases tw with
    | nil => simp at h1
    | cons b bs =>
      cases dw with
      | nil => simp at h2
      | cons c cs =>
        have h1' : as.length = bs.length := by simpa using h1
        have h2' : as.length = cs.length := by simpa using h2
        have hp' : ∀ j, j < as.length → as.getD j 0 = bs.getD j 0 → cs.getD j 0 = as.getD j 0 :=
          fun j hj hq => by simpa using hp (j + 1) (by simpa using hj) (by simpa using hq)
        have iht := ih bs cs h1' h2' hp'
        by_cases hab : a = b
        · have hca : c = a := by simpa using hp 0 (by simp) (by simpa using hab)
          subst hab
          subst hca
          by_cases htail : as = bs
          · subst htail
            have hcs : cs = as :=
              getD_ext cs as h2'.symm (fun j hj => hp' j (h2' ▸ hj) rfl)
            subst hcs
            simp [commitWordSSE, zipWith3, iht] at *
            simpa using iht
          · simp only [commitWordSSE, zipWith3] at iht ⊢
            rw [iht]
            simp [htail]
        · by_cases htail : as = bs
          · subst htail
            have hcs : cs = as :=
              getD_ext cs as h2'.symm (fun j hj => hp' j (h2' ▸ hj) rfl)
            subst hcs
            simp only [commitWordSSE, zipWith3] at iht ⊢
            rw [iht]
            simp [hab]
          · simp only [commitWordSSE, zipWith3] at iht ⊢
            rw [iht]
            simp [hab, htail]

/-- Claim C5 counterexample: working word bytes [1,0,0,0], twin word bytes
[2,0,0,0] (the words differ only in their first byte), destination bytes
[9,9,9,9]: the SSE byte-lane path writes only the differing byte and leaves
the destination at [1,9,9,9], while the word-at-a-time fallback overwrites
the whole word giving [1,0,0,0] — the two paths do NOT leave identical final
contents for every triple of page buffers. -/
theorem commitPageDiffs_paths_differ :
    commitPageDiffsSSE [[1, 0, 0, 0]] [[2, 0, 0, 0]] [[9, 9, 9, 9]] = [[1, 9, 9, 9]] ∧
    commitPageDiffsFallback [[1, 0, 0, 0]] [[2, 0, 0, 0]] [[9, 9, 9, 9]] = [[1, 0, 0, 0]] ∧
    commitPageDiffsSSE [[1, 0, 0, 0]] [[2, 0, 0, 0]] [[9, 9, 9, 9]]
      ≠ commitPageDiffsFallback [[1, 0, 0, 0]] [[2, 0, 0, 0]] [[9, 9, 9, 9]] := by
  decide

/-- Claim C5 (amended): the vectorized byte-lane path and the portable
word-at-a-time fallback of commitPageDiffs leave the destination page with
identical final contents for every triple of page buffers in which the
destination already agrees with the working copy at each byte where the
working-copy byte equals the twin byte — in particular whenever the
destination initially equals the twin, which is the state commit establishes
before another process interferes.  (Without that agreement the paths
genuinely differ: see the counterexample.) -/
theorem commitPageDiffs_paths_agree_on_twin_initialized_dest :
    ∀ (L T D : List (List Nat)),
    L.length = T.length → L.length = D.length →
    (∀ k, k < L.length →
      (L.getD k []).length = (T.getD k []).length ∧
      (L.getD k []).length = (D.getD k []).length ∧
      (∀ j, j < (L.getD k []).length →
        (L.getD k []).getD j 0 = (T.getD k []).getD j 0 →
        (D.getD k []).getD j 0 = (L.getD k []).getD j 0)) →
    commitPageDiffsSSE L T D = commitPageDiffsFallback L T D := by
  intro L
  induction L with
  | nil =>
    intro T D _ _ _
    cases T <;> cases D <;> simp [commitPageDiffsSSE, commitPageDiffsFallback, zipWith3]
  | cons lw L ih =>
    intro T D h1 h2 hp
    cases T with
    | nil => simp at h1
    | cons tw T =>
      cases D with
      | nil => simp at h2
      | cons dw D =>
        have hw := hp 0 (by simp)
        simp only [List.getD_cons_zero] at hw
        have hhead : commitWordSSE lw tw dw = if lw ≠ tw then lw else dw :=
          commitWordSSE_eq_select lw tw dw hw.1 hw.2.1 hw.2.2
        have htail : commitPageDiffsSSE L T D = commitPageDiffsFallback L T D := by
          refine ih T D (by simpa using h1) (by simpa using h2) ?_
          intro k hk
          have := hp (k + 1) (by simpa using hk)
          simpa using this
        simp only [commitPageDiffsSSE, commitPageDiffsFallback, zipWith3] at htail ⊢
        rw [hhead, htail]

/-- Claim C5 witness: the amended equivalence applied to a concrete triple
whose destination initially equals the twin. -/
theorem commitPageDiffs_paths_agree_witness :
    commitPageDiffsSSE [[1, 2, 3, 4]] [[1, 9, 3, 4]] [[1, 9, 3, 4]]
      = commitPageDiffsFallback [[1, 2, 3, 4]] [[1, 9, 3, 4]] [[1, 9, 3, 4]] :=
  commitPageDiffs_paths_agree_on_twin_initialized_dest
    [[1, 2, 3, 4]] [[1, 9, 3, 4]] [[1, 9, 3, 4]] (by decide) (by decide) (by decide)

/-! Claim C7: which pages periodicCheck skips. -/

theorem periodicCheckStep_skip (myTid : Nat) (pageUsers : Nat → Nat)
    (pool : Nat → List Nat) (acc : PCAcc) (pg : pageinfo)
    (h1 : pg.shared = false) (h2 : pageUsers pg.pageNo = 1) :
    periodicCheckStep myTid pageUsers pool acc pg = (acc, pg) := by
  unfold periodicCheckStep
  simp [h1, h2]

theorem periodicCheckGo_getD_skip (myTid : Nat) (pageUsers : Nat → Nat)
    (pool : Nat → List Nat) :
    ∀ (pages : List pageinfo) (acc : PCAcc) (k : Nat) (d : pageinfo),
      k < pages.length → (pages.getD k d).shared = false →
      pageUsers (pages.getD k d).pageNo = 1 →
      ((periodicCheckGo myTid pageUsers pool acc pages).2).getD k d = pages.getD k d := by
  intro pages
  induction pages with
  | nil => intro acc k d hk; simp at hk
  | cons pg rest ih =>
    intro acc k d hk h1 h2
    cases k with
    | zero =>
      have hs : periodicCheckStep myTid pageUsers pool acc pg = (acc, pg) :=
        periodicCheckStep_skip myTid pageUsers pool acc pg h1 h2
      simp [periodicCheckGo, hs]
    | succ k =>
      rw [List.getD_cons_succ] at h1 h2 ⊢
      have hk1 : k < rest.length := by simpa using hk
      simp only [periodicCheckGo, List.getD_cons_succ]
      exact ih _ k d hk1 h1 h2

/-- Claim C7 counterexample: a page that is already marked shared but whose
distinct-user counter still reads 1 is NOT skipped by periodicCheck: the
pass promotes it anyway — it allocates the page's extra resources (alloced
becomes true, the temporary twin and zeroed word-change buffer are
installed) and invokes recordChangesAndUpdate on it (the trace has the
invocation) — because the source consults the user counter only for pages
not yet marked shared. -/
theorem periodicCheck_processes_shared_page_with_one_user :
    (periodicCheck 9 (fun _ => 1) (fun _ => [0]) ⟨fun _ => 0, fun _ => 0⟩
        [⟨0, [5], [0], [], [], true, false⟩]).1.trace = [(0, true)] ∧
    (periodicCheck 9 (fun _ => 1) (fun _ => [0]) ⟨fun _ => 0, fun _ => 0⟩
        [⟨0, [5], [0], [], [], true, false⟩]).2 = [⟨0, [5], [5], [0], [0], true, true⟩] := by
  refine ⟨by decide, by decide⟩

/-- Claim C7 (amended): periodicCheck skips exactly the pages that are NOT
yet marked shared and whose distinct-user counter reads 1: such an entry of
the private pages list is returned unchanged (no promotion, no resource
allocation), and its loop body is a no-op for any loop state — no
recordChangesAndUpdate invocation is traced and the cache arrays and flag
are untouched.  Pages already marked shared are processed regardless of the
counter (see the counterexample). -/
theorem periodicCheck_skips_unshared_single_user_pages (myTid : Nat)
    (pageUsers : Nat → Nat) (pool : Nat → List Nat) (cs : CacheState)
    (pages : List pageinfo) (k : Nat) (d : pageinfo)
    (hk : k < pages.length)
    (h1 : (pages.getD k d).shared = false)
    (h2 : pageUsers (pages.getD k d).pageNo = 1) :
    ((periodicCheck myTid pageUsers pool cs pages).2).getD k d = pages.getD k d ∧
    (∀ acc : PCAcc,
      periodicCheckStep myTid pageUsers pool acc (pages.getD k d) = (acc, pages.getD k d)) :=
  ⟨periodicCheckGo_getD_skip myTid pageUsers pool pages ⟨false, cs, 0, []⟩ k d hk h1 h2,
   fun acc => periodicCheckStep_skip myTid pageUsers pool acc (pages.getD k d) h1 h2⟩

/-- Claim C7 witness: the amended skip theorem applied to a concrete
one-page list whose page is unshared with user count 1. -/
theorem periodicCheck_skips_unshared_single_user_pages_witness :
    ((periodicCheck 9 (fun _ => 1) (fun _ => [0]) ⟨fun _ => 0, fun _ => 0⟩
        [⟨0, [5], [0], [], [], false, false⟩]).2).getD 0 ⟨0, [], [], [], [], false, false⟩
      = [⟨0, [5], [0], [], [], false, false⟩].getD 0 ⟨0, [], [], [], [], false, false⟩ :=
  (periodicCheck_skips_unshared_single_user_pages 9 (fun _ => 1) (fun _ => [0])
    ⟨fun _ => 0, fun _ => 0⟩ [⟨0, [5], [0], [], [], false, false⟩] 0
    ⟨0, [], [], [], [], false, false⟩ (by decide) (by decide) rfl).1

/-! Claim C6: the ABA branch of checkcommitpage. -/

theorem ccpStep_preserve (myTid pageNo : Nat) (localP twinP tempTwinP : List (List Nat))
    (localChanges : List Nat) (st : CommitPageState) (j i : Nat) (h : j ≠ i) :
    (checkcommitpageStep myTid pageNo localP twinP tempTwinP localChanges st j).globalChanges.getD i ⟨0, 0⟩
        = st.globalChanges.getD i ⟨0, 0⟩ ∧
    (checkcommitpageStep myTid pageNo localP twinP tempTwinP localChanges st j).share.getD i []
        = st.share.getD i [] ∧
    ((i ∈ (checkcommitpageStep myTid pageNo localP twinP tempTwinP localChanges st j).trace) → i ∈ st.trace) ∧
    (checkcommitpageStep myTid pageNo localP twinP tempTwinP localChanges st j).globalChanges.length
        = st.globalChanges.length ∧
    (checkcommitpageStep myTid pageNo localP twinP tempTwinP localChanges st j).share.length
        = st.share.length := by
  unfold checkcommitpageStep
  split_ifs <;> refine ⟨?_, ?_, ?_, ?_, ?_⟩ <;>
    first
      | rfl
      | exact getD_set_ne _ j i _ _ h
      | exact fun hx => hx
      | exact List.length_set _ _ _
      | (intro hx
         rcases List.mem_append.1 hx with hx | hx
         · exact hx
         · exact absurd (List.mem_singleton.1 hx) (Ne.symm h))

theorem ccpFold_preserve (myTid pageNo : Nat) (localP twinP tempTwinP : List (List Nat))
    (localChanges : List Nat) (i : Nat) :
    ∀ (l : List Nat) (st : CommitPageState), (∀ j ∈ l, j ≠ i) →
      (List.foldl (checkcommitpageStep myTid pageNo localP twinP tempTwinP localChanges) st l).globalChanges.getD i ⟨0, 0⟩
          = st.globalChanges.getD i ⟨0, 0⟩ ∧
      (List.foldl (checkcommitpageStep myTid pageNo localP twinP tempTwinP localChanges) st l).share.getD i []
          = st.share.getD i [] ∧
      ((i ∈ (List.foldl (checkcommitpageStep myTid pageNo localP twinP tempTwinP localChanges) st l).trace) → i ∈ st.trace) ∧
      (List.foldl (checkcommitpageStep myTid pageNo localP twinP tempTwinP localChanges) st l).globalChanges.length
          = st.globalChanges.length ∧
      (List.foldl (checkcommitpageStep myTid pageNo localP twinP tempTwinP localChanges) st l).share.length
          = st.share.length := by
  intro l
  induction l with
  | nil => intro st _; exact ⟨rfl, rfl, id, rfl, rfl⟩
  | cons j l ih =>
    intro st hl
    have hj : j ≠ i := hl j (by simp)
    have hstep := ccpStep_preserve myTid pageNo localP twinP tempTwinP localChanges st j i hj
    have hrest := ih (checkcommitpageStep myTid pageNo localP twinP tempTwinP localChanges st j)
      (fun x hx => hl x (by simp [hx]))
    rw [List.foldl_cons]
    exact ⟨hrest.1.trans hstep.1, hrest.2.1.trans hstep.2.1,
      fun hx => hstep.2.2.1 (hrest.2.2.1 hx),
      hrest.2.2.2.1.trans hstep.2.2.2.1, hrest.2.2.2.2.trans hstep.2.2.2.2⟩

/-- Claim C6: during checkcommitpage, every word whose working-copy value
equals its original-twin value but whose local change count is nonzero (the
ABA pattern) has its global per-word record's version advanced by exactly
that count (16-bit arithmetic), while that word's slot of the persistent
mapping is not written and no cache-invalidation recording is attributed to
that word (its index never enters the trace of recordCacheInvalidates
calls). -/
theorem checkcommitpage_aba_word (myTid pageNo : Nat)
    (localP twinP tempTwinP : List (List Nat)) (localChanges : List Nat)
    (cs : CacheState) (share : List (List Nat)) (global : List wordchangeinfo)
    (i : Nat) (hi : i < localP.length)
    (hg : global.length = localP.length)
    (heq : localP.getD i [] = twinP.getD i [])
    (hc : localChanges.getD i 0 ≠ 0) :
    ((checkcommitpage myTid pageNo localP twinP tempTwinP localChanges cs share global).globalChanges.getD i ⟨0, 0⟩).version
        = ((global.getD i ⟨0, 0⟩).version + localChanges.getD i 0) % 65536 ∧
    (checkcommitpage myTid pageNo localP twinP tempTwinP localChanges cs share global).share.getD i []
        = share.getD i [] ∧
    i ∉ (checkcommitpage myTid pageNo localP twinP tempTwinP localChanges cs share global).trace := by
  obtain ⟨l1, l2, hr, hl1, hl2⟩ := range_split localP.length i hi
  unfold checkcommitpage
  rw [hr, List.foldl_append, List.foldl_cons]
  have p1 := ccpFold_preserve myTid pageNo localP twinP tempTwinP localChanges i l1
    ⟨cs, share, global, 0xFFFFFFFF, []⟩ hl1
  generalize hA : List.foldl (checkcommitpageStep myTid pageNo localP twinP tempTwinP localChanges)
      (⟨cs, share, global, 0xFFFFFFFF, []⟩ : CommitPageState) l1 = A at p1 ⊢
  obtain ⟨r1, r2, r3, r4, r5⟩ := p1
  have hstepi : checkcommitpageStep myTid pageNo localP twinP tempTwinP localChanges A i
      = { A with globalChanges := A.globalChanges.set i (recordWordChanges myTid (A.globalChanges.getD i ⟨0, 0⟩) (localChanges.getD i 0)) } := by
    unfold checkcommitpageStep
    rw [if_pos heq, if_pos hc]
  rw [hstepi]
  have p2 := ccpFold_preserve myTid pageNo localP twinP tempTwinP localChanges i l2
    { A with globalChanges := A.globalChanges.set i (recordWordChanges myTid (A.globalChanges.getD i ⟨0, 0⟩) (localChanges.getD i 0)) } hl2
  obtain ⟨q1, q2, q3, q4, q5⟩ := p2
  have hlen : i < A.globalChanges.length := by
    rw [r4]
    show i < global.length
    omega
  refine ⟨?_, ?_, ?_⟩
  · rw [q1]
    show ((A.globalChanges.set i
        (recordWordChanges myTid (A.globalChanges.getD i ⟨0, 0⟩) (localChanges.getD i 0))).getD i ⟨0, 0⟩).version
      = ((global.getD i ⟨0, 0⟩).version + localChanges.getD i 0) % 65536
    rw [getD_set_self _ i _ _ hlen, r1]
    rfl
  · rw [q2]
    show A.share.getD i [] = share.getD i []
    rw [r2]
  · intro hx
    exact (List.not_mem_nil i) (r3 (q3 hx))

/-- Claim C6 witness: the ABA theorem applied to a concrete one-word page
whose working copy equals the original twin while the local change count is
3: the global version advances from 5 to 8, the shared word [8,8,8,8] is
untouched, and no invalidation call is attributed to the word. -/
theorem checkcommitpage_aba_word_witness :
    ((checkcommitpage 9 0 [[1, 2, 3, 4]] [[1, 2, 3, 4]] [[0, 0, 0, 0]] [3]
        ⟨fun _ => 0, fun _ => 0⟩ [[8, 8, 8, 8]] [⟨0, 5⟩]).globalChanges.getD 0 ⟨0, 0⟩).version
        = ((([⟨0, 5⟩] : List wordchangeinfo).getD 0 ⟨0, 0⟩).version + ([3] : List Nat).getD 0 0) % 65536 ∧
    (checkcommitpage 9 0 [[1, 2, 3, 4]] [[1, 2, 3, 4]] [[0, 0, 0, 0]] [3]
        ⟨fun _ => 0, fun _ => 0⟩ [[8, 8, 8, 8]] [⟨0, 5⟩]).share.getD 0 []
        = ([[8, 8, 8, 8]] : List (List Nat)).getD 0 [] ∧
    0 ∉ (checkcommitpage 9 0 [[1, 2, 3, 4]] [[1, 2, 3, 4]] [[0, 0, 0, 0]] [3]
        ⟨fun _ => 0, fun _ => 0⟩ [[8, 8, 8, 8]] [⟨0, 5⟩]).trace :=
  checkcommitpage_aba_word 9 0 [[1, 2, 3, 4]] [[1, 2, 3, 4]] [[0, 0, 0, 0]] [3]
    ⟨fun _ => 0, fun _ => 0⟩ [[8, 8, 8, 8]] [⟨0, 5⟩] 0
    (by decide) (by decide) (by decide) (by decide)

/-! Claim C8: page index computed by handleWrite. -/

/-- Claim C8 counterexample: for an element type of size 2 and a faulting
address at byte offset 4096 from the region base, handleWrite records page
index 2 although the address lies in page 1: computePage multiplies the byte
offset by sizeof(Type) before dividing by the page size. -/
theorem handleWrite_pageNo_wrong_for_two_byte_elements :
    handleWritePageNo 2 0 4096 = 2 ∧ (4096 - 0) / PageSize = 1 ∧
    handleWritePageNo 2 0 4096 ≠ (4096 - 0) / PageSize := by
  decide

/-- Claim C8 (amended): the page index recorded by handleWrite equals
((addr - base) * sizeof(Type)) / PageSize; when sizeof(Type) = 1 (byte
element types, as the detector instantiates the template) this is exactly
the index of the page containing the faulting address. -/
theorem handleWrite_pageNo_formula :
    (∀ sizeofType base addr : Nat,
        handleWritePageNo sizeofType base addr = ((addr - base) * sizeofType) / PageSize) ∧
    (∀ base addr : Nat, handleWritePageNo 1 base addr = (addr - base) / PageSize) := by
  constructor
  · intro sizeofType base addr; rfl
  · intro base addr
    unfold handleWritePageNo computePage
    rw [Nat.mul_one]

/-! Claim C9: size() of a globals region. -/

/-- Claim C9 counterexample: a globals region created with an initial buffer
of exactly 4096 bytes (already a page multiple) reports size 8192, not the
smallest page multiple greater than or equal to 4096 (which is 4096
itself). -/
theorem size_globals_page_multiple_overshoot :
    size false 1 4096 (ctorStartsizeGlobals 4096) = 8192 ∧
    4096 % PageSize = 0 ∧
    size false 1 4096 (ctorStartsizeGlobals 4096) ≠ 4096 := by
  decide

/-- Claim C9 (amended): for a globals region with an initial buffer of S
bytes, size() returns (S / PageSize + 1) * PageSize — the smallest page
multiple ≥ S when S is not itself a page multiple, but S + PageSize (one
full page more than necessary) when S is already a page multiple; for a heap
region size() returns NElts * sizeof(Type). -/
theorem size_globals_rounding (S nelts sizeofType : Nat) :
    size false nelts sizeofType (ctorStartsizeGlobals S) = (S / PageSize + 1) * PageSize ∧
    (S % PageSize = 0 → ctorStartsizeGlobals S = S + PageSize) ∧
    (S % PageSize ≠ 0 → ctorStartsizeGlobals S = ((S + PageSize - 1) / PageSize) * PageSize) ∧
    size true nelts sizeofType (ctorStartsizeGlobals S) = nelts * sizeofType := by
  refine ⟨rfl, ?_, ?_, rfl⟩
  · intro h
    unfold ctorStartsizeGlobals PageSize at *
    omega
  · intro h
    unfold ctorStartsizeGlobals PageSize at *
    omega

/-- Claim C9 witness: the amended rounding facts evaluated at S = 4096 (a
page multiple: one page of overshoot) and S = 5000 (not a page multiple:
ordinary round-up). -/
theorem size_globals_rounding_witness :
    ctorStartsizeGlobals 4096 = 4096 + PageSize ∧
    ctorStartsizeGlobals 5000 = ((5000 + PageSize - 1) / PageSize) * PageSize :=
  ⟨(size_globals_rounding 4096 1 1).2.1 (by decide),
   (size_globals_rounding 5000 1 1).2.2.1 (by decide)⟩

/-! Claim C10: one-directional shared sentinel in recordWordChanges. -/

/-- Claim C10: once a word's owner field holds the 0xFFFF shared sentinel,
recordWordChanges leaves the owner equal to the sentinel (it is never reset
to a single-owner id) while still adding the given count to the 16-bit
version field. -/
theorem recordWordChanges_sentinel_preserved (mine : Nat) (w : wordchangeinfo)
    (changes : Nat) (h : w.tid = 0xFFFF) :
    recordWordChanges mine w changes = ⟨0xFFFF, (w.version + changes) % 65536⟩ := by
  unfold recordWordChanges
  rw [h]
  simp

/-- Claim C10 witness: the sentinel-preservation theorem applied at the
concrete record (tid = 0xFFFF, version = 7) with count 3 and pid 9. -/
theorem recordWordChanges_sentinel_preserved_witness :
    recordWordChanges 9 ⟨0xFFFF, 7⟩ 3 = ⟨0xFFFF, (7 + 3) % 65536⟩ :=
  recordWordChanges_sentinel_preserved 9 ⟨0xFFFF, 7⟩ 3 rfl

end Sheriff
